import Mathlib

/-!
Shallow embedding of `src/word-addin-dev.js` (a developer-workflow
orchestrator for Office add-ins) and proofs about it.

Text is modelled as `List Char`; JavaScript strings that only flow through
opaque channels (URLs, error messages) stay `String`.  Effectful
primitives (`fetch`, `process.kill`, `child_process` calls, the file
system) are modelled by explicit parameters describing their outcomes,
and fallible JS code is modelled with `Except String`.
-/

namespace WordAddinDev

/-- Whitespace recognised by JavaScript `String.prototype.trim`
(ASCII fragment: space, tab, LF, CR, VT, FF). -/
def jsWhitespace (c : Char) : Bool :=
  c = ' ' || c = '\t' || c = '\n' || c = '\r' || c = '\x0b' || c = '\x0c'

/-- JavaScript `String.prototype.trim` on a character list. -/
def jsTrim (l : List Char) : List Char :=
  ((l.dropWhile jsWhitespace).reverse.dropWhile jsWhitespace).reverse

/-- Decimal value of a digit list (only used on all-digit lists). -/
def digitsToNat (l : List Char) : Nat :=
  l.foldl (fun acc c => acc * 10 + (c.toNat - '0'.toNat)) 0

/-- JavaScript `Number(s)` restricted to the fragment the program feeds it
(already-trimmed strings): the empty string converts to `0`, an optional
sign followed by decimal digits converts to that integer, and anything
else (including `NaN`, `Infinity`, floats, hex) yields `none`, which also
stands for every value rejected by `Number.isFinite`. -/
def jsNumberInt (l : List Char) : Option Int :=
  match l with
  | [] => some 0
  | '+' :: ds => if ds ≠ [] ∧ ds.all (fun c => c.isDigit) then some ((digitsToNat ds : Int)) else none
  | '-' :: ds => if ds ≠ [] ∧ ds.all (fun c => c.isDigit) then some (-(digitsToNat ds : Int)) else none
  | ds => if ds.all (fun c => c.isDigit) then some ((digitsToNat ds : Int)) else none

/-- `killPidFile(pidPath)` from the source.  `pidPath` is `none` for a
falsy path and the empty string is the other falsy case; `content` is
`none` when the file does not exist, otherwise the file's text.  The
result is the pid handed to `process.kill` (`none` when no signal is
attempted; the try/catch around the kill swallows signal errors, which
does not affect which pid is signalled). -/
def killPidFile (pidPath : Option String) (content : Option String) : Option Int :=
  match pidPath with
  | none => none
  | some p =>
    if p = "" then none
    else
      match content with
      | none => none
      | some raw =>
        match jsNumberInt (jsTrim raw.toList) with
        | none => none
        | some pid => some pid

/-- Split a character list at every `'\n'` (JavaScript `split(/\r?\n/)`,
first stage). -/
def splitOnNl : List Char → List (List Char)
  | [] => [[]]
  | c :: rest =>
    let r := splitOnNl rest
    if c = '\n' then [] :: r
    else
      match r with
      | [] => [[c]]
      | h :: t => (c :: h) :: t

/-- Drop a single trailing `'\r'` (the optional `\r` of the separator
`/\r?\n/`). -/
def dropTrailingCr (l : List Char) : List Char :=
  match l.getLast? with
  | some '\r' => l.dropLast
  | _ => l

/-- JavaScript `split(/\r?\n/)`. -/
def splitLinesRN (l : List Char) : List (List Char) :=
  (splitOnNl l).map dropTrailingCr

/-- `killPort(port)` from the source.  `port` is the JS number (`none` for
`NaN`); `lookup` is the outcome of the `lsof` invocation (`Except.error`
when `execFileSync` throws: `lsof` absent or no listeners); `killResult`
gives the outcome of `process.kill` on each pid.  The result records the
pids a signal was attempted on, paired with whether the signal succeeded;
the per-pid try/catch turns a kill error into a recorded failure instead
of a thrown one, and the outer try/catch turns a lookup error into an
empty result. -/
def killPort (port : Option Int) (lookup : Except String String)
    (killResult : Int → Except String Unit) : Except String (List (Int × Bool)) :=
  match port with
  | none => Except.ok []
  | some p =>
    if p = 0 then Except.ok []
    else
      match lookup with
      | Except.error _ => Except.ok []
      | Except.ok raw =>
        let t := jsTrim raw.toList
        if t = [] then Except.ok []
        else
          let pids := ((splitLinesRN t).map (fun line => jsNumberInt (jsTrim line))).filterMap id
          Except.ok (pids.map (fun pid =>
            (pid, match killResult pid with
                  | Except.ok _ => true
                  | Except.error _ => false)))

/-- The five XML entity escapes recognised by `hasUnescapedAmp`. -/
def knownEntityAt (l : List Char) : Bool :=
  "&amp;".toList.isPrefixOf l || "&lt;".toList.isPrefixOf l ||
  "&gt;".toList.isPrefixOf l || "&quot;".toList.isPrefixOf l ||
  "&apos;".toList.isPrefixOf l

/-- `hasUnescapedAmp(value)` from the source: linear walk; at each `'&'`
the remaining suffix must start with one of the five known entities,
otherwise the value is flagged. -/
def hasUnescapedAmp : List Char → Bool
  | [] => false
  | c :: rest =>
    if c = '&' then
      if knownEntityAt (c :: rest) then hasUnescapedAmp rest
      else true
    else hasUnescapedAmp rest

/-- The literal pattern prefix of the regex `DefaultValue="([^"]*)"`. -/
def dvPat : List Char := "DefaultValue=\"".toList

/-- Split a list at the first `'"'`: `some (before, after)` when a quote
exists, `none` otherwise (the regex needs a closing quote to match). -/
def breakAtQuote : List Char → Option (List Char × List Char)
  | [] => none
  | c :: rest =>
    if c = '"' then some ([], rest)
    else
      match breakAtQuote rest with
      | none => none
      | some (v, r) => some (c :: v, r)

/-- Fuelled scanner behind `extractDefaultValues`: at each position, if
the text starts with `DefaultValue="` and a closing quote follows, capture
the value and resume after the closing quote (the regex's `lastIndex`);
otherwise advance one character.  The fuel (instantiated with the text's
length, which each step strictly decreases below) only forces
termination. -/
def extractGo : Nat → List Char → List (List Char)
  | 0, _ => []
  | _, [] => []
  | fuel + 1, c :: rest =>
    if dvPat.isPrefixOf (c :: rest) then
      match breakAtQuote ((c :: rest).drop dvPat.length) with
      | some (v, r) => v :: extractGo fuel r
      | none => []
    else extractGo fuel rest

/-- All capture groups of the global regex `DefaultValue="([^"]*)"` over
the text, in match order. -/
def extractDefaultValues (l : List Char) : List (List Char) :=
  extractGo l.length l

/-- JavaScript `haystack.includes(needle)`: does `needle` occur as a
contiguous substring? -/
def containsSub (needle : List Char) : List Char → Bool
  | [] => needle.isEmpty
  | c :: rest => needle.isPrefixOf (c :: rest) || containsSub needle rest

/-- The issue message pushed for an unescaped ampersand
(`'unescaped & in DefaultValue: ' + match[1].slice(0, 120)`). -/
def ampMsg (v : List Char) : List Char :=
  "unescaped & in DefaultValue: ".toList ++ v.take 120

/-- The `while ((match = attrRegex.exec(xmlText)))` loop of
`validateManifestText`: the first captured value with an unescaped
ampersand contributes one issue and the loop `break`s; no flagged value
means no issue. -/
def ampIssues : List (List Char) → List (List Char)
  | [] => []
  | v :: rest => if hasUnescapedAmp v then [ampMsg v] else ampIssues rest

/-- `validateManifestText(xmlText)` from the source: the three required
substring checks push their fixed messages in order, then the ampersand
scan contributes at most one message. -/
def validateManifestText (xmlText : List Char) : List (List Char) :=
  (if containsSub "<OfficeApp".toList xmlText then [] else ["missing <OfficeApp>".toList]) ++
  (if containsSub "<Id>".toList xmlText then [] else ["missing <Id>".toList]) ++
  (if containsSub "SourceLocation".toList xmlText then [] else ["missing SourceLocation".toList]) ++
  ampIssues (extractDefaultValues xmlText)

/-- Outcome of one run of the `waitForHealth` loop: how many `fetch`
requests were issued, total milliseconds spent in `sleep`, and whether a
response with `res.ok` was seen. -/
structure HealthRun where
  requests : Nat
  sleptMs : Nat
  success : Bool
  deriving DecidableEq, Repr

/-- The `for` loop of `waitForHealth`.  `resp i` is the outcome of the
`fetch` on attempt `i` (0-based): `none` when `fetch` throws (the error is
swallowed), `some b` when it returns a response with `res.ok = b`.  On
`some true` the loop returns at once; otherwise it sleeps `waitMs` and
continues. -/
def healthLoop (resp : Nat → Option Bool) (waitMs : Nat) : Nat → Nat → HealthRun
  | _, 0 => ⟨0, 0, false⟩
  | i, n + 1 =>
    if resp i = some true then ⟨1, 0, true⟩
    else
      let r := healthLoop resp waitMs (i + 1) n
      ⟨r.requests + 1, waitMs + r.sleptMs, r.success⟩

/-- `waitForHealth(url, attempts, delayMs)` from the source.  The JS
defaults `attempts || 12` and `delayMs || 400` replace a falsy (zero)
argument; exhaustion throws an error naming the URL. -/
def waitForHealth (url : String) (attempts delayMs : Nat)
    (resp : Nat → Option Bool) : HealthRun × Except String Unit :=
  let maxAttempts := if attempts = 0 then 12 else attempts
  let waitMs := if delayMs = 0 then 400 else delayMs
  let r := healthLoop resp waitMs 0 maxAttempts
  (r, if r.success then Except.ok () else Except.error ("server not healthy at " ++ url))

/-- A value stored by `parseArgs`: the boolean `true` for a flag with no
following value, otherwise the following token (the source never stores
`false` or an empty-string token, but `boolArg` handles both). -/
inductive ArgVal where
  | bool : Bool → ArgVal
  | str : String → ArgVal
  deriving DecidableEq, Repr

/-- JavaScript truthiness of a parsed argument value. -/
def argTruthy : ArgVal → Bool
  | ArgVal.bool b => b
  | ArgVal.str s => s ≠ ""

/-- JavaScript `String(v)` on a parsed argument value. -/
def argToString : ArgVal → String
  | ArgVal.bool true => "true"
  | ArgVal.bool false => "false"
  | ArgVal.str s => s

/-- The parsed argument map: `args key = none` models `undefined`. -/
def Args := String → Option ArgVal

/-- `boolArg(args, key, defaultValue)` from the source: `undefined` yields
the default, a boolean is returned as-is, and a string is lowercased
(ASCII, via `Char.toLower`) and compared against `'false'`, `'0'`,
`'no'`. -/
def boolArg (args : Args) (key : String) (defaultValue : Bool) : Bool :=
  match args key with
  | none => defaultValue
  | some (ArgVal.bool b) => b
  | some (ArgVal.str s) =>
    let v := s.toList.map Char.toLower
    if v = "false".toList ∨ v = "0".toList ∨ v = "no".toList then false else true

/-- `manifestPath` truthiness in `main`: `args.manifest ? path.resolve(String(args.manifest)) : null`
is non-null exactly when `args.manifest` is truthy. -/
def manifestGiven (args : Args) : Bool :=
  match args "manifest" with
  | none => false
  | some v => argTruthy v

/-- `serverCmd` truthiness in `main`. -/
def serverCmdGiven (args : Args) : Bool :=
  match args "server-cmd" with
  | none => false
  | some v => argTruthy v

/-- `const sideload = boolArg(args, 'sideload', Boolean(manifestPath))`. -/
def resolveSideload (args : Args) : Bool :=
  boolArg args "sideload" (manifestGiven args)

/-- `const restart = boolArg(args, 'restart', sideload)`. -/
def resolveRestart (args : Args) : Bool :=
  boolArg args "restart" (resolveSideload args)

/-- `const clearCache = boolArg(args, 'clear-cache', false)`. -/
def resolveClearCache (args : Args) : Bool :=
  boolArg args "clear-cache" false

/-- `const validate = boolArg(args, 'validate', true)`. -/
def resolveValidate (args : Args) : Bool :=
  boolArg args "validate" true

/-- `const health = boolArg(args, 'health', true)`. -/
def resolveHealth (args : Args) : Bool :=
  boolArg args "health" true

/-- `const killPortFlag = boolArg(args, 'kill-port', true)`. -/
def resolveKillPort (args : Args) : Bool :=
  boolArg args "kill-port" true

/-- `const port = Number(args.port || 4321)`: a missing or falsy argument
falls back to `4321`; the bare flag `--port` stores `true`, and
`Number(true) = 1`; a non-empty string goes through `Number` (the
`jsNumberInt` fragment, `none` for `NaN`). -/
def resolvePort (args : Args) : Option Int :=
  match args "port" with
  | none => some 4321
  | some (ArgVal.bool true) => some 1
  | some (ArgVal.bool false) => some 4321
  | some (ArgVal.str s) =>
    if s = "" then some 4321 else jsNumberInt (jsTrim s.toList)

/-- Rendering of the port number into the default health URL
(JavaScript number-to-string; `NaN` prints as `"NaN"`). -/
def portToString : Option Int → String
  | none => "NaN"
  | some n => toString n

/-- `const healthUrl = args['health-url'] || ...` — the default URL is
built from the resolved port. -/
def resolveHealthUrl (args : Args) : String :=
  match args "health-url" with
  | some v =>
    if argTruthy v then argToString v
    else "http://localhost:" ++ portToString (resolvePort args) ++ "/api/health"
  | none => "http://localhost:" ++ portToString (resolvePort args) ++ "/api/health"

/-- One observable step of `main`, in source order. -/
inductive Step where
  | validate
  | clearCache
  | sideload
  | killPort
  | killPidFile
  | launch
  | health
  | restart
  | report
  deriving DecidableEq, Repr

/-- Environment of one `main` run: the parsed arguments plus the outcomes
of the effectful collaborators (file contents, external commands,
`fetch`). -/
structure Env where
  args : Args
  manifestText : List Char
  clearCacheResult : Except String Unit
  sideloadResult : Except String Unit
  spawnResult : Except String Nat
  healthResp : Nat → Option Bool
  restartResult : Except String Unit

/-- Result of a stage (or stage sequence): the steps it performed and
whether it threw. -/
abbrev StageRes := List Step × Except String Unit

/-- Sequencing with exception propagation: a thrown error skips every
later stage (`main` has no handler of its own; `main().catch` only
reports). -/
def andThen (r : StageRes) (k : Unit → StageRes) : StageRes :=
  match r with
  | (t, Except.error e) => (t, Except.error e)
  | (t, Except.ok _) =>
    let s := k ()
    (t ++ s.1, s.2)

/-- `if (manifestPath && validate) validateManifestFile(manifestPath)`:
validation runs only when a manifest was given and the flag is true, and
throws `Manifest invalid: ...` (issues joined by `'; '`) when the
validator returns defects. -/
def stValidate (env : Env) : StageRes :=
  if manifestGiven env.args ∧ resolveValidate env.args then
    if (validateManifestText env.manifestText).isEmpty then
      ([Step.validate], Except.ok ())
    else
      ([Step.validate],
        Except.error ("Manifest invalid: " ++
          String.mk (List.intercalate "; ".toList (validateManifestText env.manifestText))))
  else ([], Except.ok ())

/-- `if (clearCache) clearOfficeCache(appValue)`. -/
def stClearCache (env : Env) : StageRes :=
  if resolveClearCache env.args then ([Step.clearCache], env.clearCacheResult)
  else ([], Except.ok ())

/-- `if (sideload) { if (!manifestPath) throw ...; sideloadMacManifest(...) }`. -/
def stSideload (env : Env) : StageRes :=
  if resolveSideload env.args then
    if manifestGiven env.args then ([Step.sideload], env.sideloadResult)
    else ([], Except.error "manifest is required when sideload=true")
  else ([], Except.ok ())

/-- `if (killPortFlag) killPort(port); else killPidFile(pidPath)`:
exactly one of the two reclamation primitives is invoked, and neither
throws (`killPort` and `killPidFile` are modelled above). -/
def stReclaim (env : Env) : StageRes :=
  if resolveKillPort env.args then ([Step.killPort], Except.ok ())
  else ([Step.killPidFile], Except.ok ())

/-- `const pid = startServerDetached(serverCmd, pidPath, logPath)`: a
missing command is a no-op returning null; otherwise a spawn (and pid
file write) happens and a spawn error propagates. -/
def stLaunch (env : Env) : StageRes :=
  if serverCmdGiven env.args then
    match env.spawnResult with
    | Except.error e => ([], Except.error e)
    | Except.ok _ => ([Step.launch], Except.ok ())
  else ([], Except.ok ())

/-- `if (health) await waitForHealth(healthUrl, 12, 400)`. -/
def stHealth (env : Env) : StageRes :=
  if resolveHealth env.args then
    ([Step.health], (waitForHealth (resolveHealthUrl env.args) 12 400 env.healthResp).2)
  else ([], Except.ok ())

/-- `if (restart) restartApps(appValue)`. -/
def stRestart (env : Env) : StageRes :=
  if resolveRestart env.args then ([Step.restart], env.restartResult)
  else ([], Except.ok ())

/-- The final `process.stdout.write('ok ...')`. -/
def stReport : StageRes := ([Step.report], Except.ok ())

/-- The stages of `main` before port reclamation. -/
def preReclaim (env : Env) : StageRes :=
  andThen (stValidate env) fun _ =>
  andThen (stClearCache env) fun _ =>
  stSideload env

/-- The stages of `main` before the health check. -/
def preHealth (env : Env) : StageRes :=
  andThen (preReclaim env) fun _ =>
  andThen (stReclaim env) fun _ =>
  stLaunch env

/-- The whole of `main` (minus the `help` early return, which none of the
modelled runs take): the steps performed, in order, and the final
outcome. -/
def mainRun (env : Env) : StageRes :=
  andThen (preHealth env) fun _ =>
  andThen (stHealth env) fun _ =>
  andThen (stRestart env) fun _ =>
  stReport

/-- `main().catch(...)`: exit code 1 exactly when some stage threw. -/
def exitCode (env : Env) : Nat :=
  match (mainRun env).2 with
  | Except.ok _ => 0
  | Except.error _ => 1

/-- Recogniser for the ampersand defect messages of the validator. -/
def isAmpIssue (m : List Char) : Bool :=
  "unescaped & in DefaultValue: ".toList.isPrefixOf m

/-- A run with no command-line arguments at all. -/
def argsEmpty : Args := fun _ => none

/-- A run whose only argument is `--manifest manifest.xml`. -/
def argsManifestOnly : Args := fun k =>
  if k = "manifest" then some (ArgVal.str "manifest.xml") else none

/-- Concrete environment: no arguments, every collaborator succeeds, the
health endpoint answers `ok` at once. -/
def envOk : Env where
  args := argsEmpty
  manifestText := []
  clearCacheResult := Except.ok ()
  sideloadResult := Except.ok ()
  spawnResult := Except.ok 7
  healthResp := fun _ => some true
  restartResult := Except.ok ()

/-- Concrete environment: `--manifest manifest.xml` whose file content is
empty, hence invalid (all three required substrings missing). -/
def envInvalidManifest : Env := { envOk with args := argsManifestOnly }

/-- Concrete environment: no arguments and a health endpoint that never
answers successfully. -/
def envHealthFail : Env := { envOk with healthResp := fun _ => none }

/-- Concrete text used to exercise the validator: all three required
substrings present and a single, properly escaped `DefaultValue`
attribute (the spec's end-to-end scenario A). -/
def scenarioAText : List Char :=
  "<OfficeApp <Id> SourceLocation DefaultValue=\"A &amp; B\"".toList

/-- Concrete text used to exercise the validator: all three required
substrings present, one escaped and two unescaped `DefaultValue`
attributes. -/
def scenarioBText : List Char :=
  "<OfficeApp <Id> SourceLocation DefaultValue=\"ok &amp; fine\" DefaultValue=\"A & B\" DefaultValue=\"C & D\"".toList

theorem healthLoop_fail (resp : Nat → Option Bool) (w : Nat)
    (hfail : ∀ i, resp i ≠ some true) :
    ∀ n i, healthLoop resp w i n = ⟨n, n * w, false⟩ := by
  intro n
  induction n with
  | zero => intro i; simp [healthLoop]
  | succ m ih =>
    intro i
    simp only [healthLoop]
    rw [if_neg (hfail i), ih (i + 1)]
    simp [Nat.succ_mul, Nat.add_comm]

theorem healthLoop_first_success (resp : Nat → Option Bool) (w : Nat) :
    ∀ m i n, m < n → resp (i + m) = some true →
      (∀ j, j < m → resp (i + j) ≠ some true) →
      healthLoop resp w i n = ⟨m + 1, m * w, true⟩ := by
  intro m
  induction m with
  | zero =>
    intro i n hn hs _
    obtain ⟨n', rfl⟩ : ∃ n', n = n' + 1 := ⟨n - 1, by omega⟩
    simp only [healthLoop]
    rw [if_pos (by simpa using hs)]
    simp
  | succ m ih =>
    intro i n hn hs hprev
    obtain ⟨n', rfl⟩ : ∃ n', n = n' + 1 := ⟨n - 1, by omega⟩
    simp only [healthLoop]
    rw [if_neg (by simpa using hprev 0 (Nat.succ_pos m))]
    rw [ih (i + 1) n' (by omega)
      (by rw [← hs]; congr 1; omega)
      (fun j hj => by
        have h := hprev (j + 1) (by omega)
        rw [show i + (j + 1) = i + 1 + j by omega] at h
        exact h)]
    simp [Nat.succ_mul, Nat.add_comm]

/-- C3: against a target that never responds successfully, `waitForHealth`
issues exactly `maxAttempts` requests (the JS `attempts || 12` default
applied), sleeps `delayMs` after every failed attempt including the last
— a total wait of `maxAttempts × delayMs`, hence at least
`(maxAttempts - 1) × delayMs` — and then fails with an error naming the
URL. -/
theorem waitForHealth_exhausts_budget (url : String) (attempts delayMs : Nat)
    (resp : Nat → Option Bool) (hfail : ∀ i, resp i ≠ some true) :
    (waitForHealth url attempts delayMs resp).1.requests
        = (if attempts = 0 then 12 else attempts)
  ∧ (waitForHealth url attempts delayMs resp).1.sleptMs
        = (if attempts = 0 then 12 else attempts) * (if delayMs = 0 then 400 else delayMs)
  ∧ ((if attempts = 0 then 12 else attempts) - 1) * delayMs
        ≤ (waitForHealth url attempts delayMs resp).1.sleptMs
  ∧ (waitForHealth url attempts delayMs resp).2
        = Except.error ("server not healthy at " ++ url) := by
  have hloop := healthLoop_fail resp (if delayMs = 0 then 400 else delayMs) hfail
    (if attempts = 0 then 12 else attempts) 0
  have hfst : (waitForHealth url attempts delayMs resp).1 =
      ⟨if attempts = 0 then 12 else attempts,
       (if attempts = 0 then 12 else attempts) * (if delayMs = 0 then 400 else delayMs),
       false⟩ := by
    simp only [waitForHealth]
    exact hloop
  have hsnd : (waitForHealth url attempts delayMs resp).2 =
      Except.error ("server not healthy at " ++ url) := by
    simp only [waitForHealth]
    rw [hloop]
    rfl
  have hdw : delayMs ≤ (if delayMs = 0 then 400 else delayMs) := by
    by_cases h : delayMs = 0
    · simp [h]
    · simp [h]
  refine ⟨by rw [hfst], by rw [hfst], ?_, hsnd⟩
  rw [hfst]
  calc ((if attempts = 0 then 12 else attempts) - 1) * delayMs
      ≤ (if attempts = 0 then 12 else attempts) * delayMs :=
        Nat.mul_le_mul_right _ (Nat.sub_le _ 1)
    _ ≤ (if attempts = 0 then 12 else attempts) * (if delayMs = 0 then 400 else delayMs) :=
        Nat.mul_le_mul_left _ hdw

theorem waitForHealth_exhausts_budget_witness :
    (waitForHealth "http://localhost:4321/api/health" 3 5 (fun _ => none)).1.requests = 3
  ∧ (waitForHealth "http://localhost:4321/api/health" 3 5 (fun _ => none)).1.sleptMs = 15
  ∧ (waitForHealth "http://localhost:4321/api/health" 3 5 (fun _ => none)).2
      = Except.error "server not healthy at http://localhost:4321/api/health" := by
  have h := waitForHealth_exhausts_budget "http://localhost:4321/api/health" 3 5
    (fun _ => none) (fun i h => Option.noConfusion h)
  exact ⟨h.1, h.2.1, h.2.2.2⟩

/-- C4: against a target that first responds successfully on attempt `k`
(1-based, `k ≤ maxAttempts`), `waitForHealth` issues exactly `k` requests,
returns success immediately with no further attempts, and sleeps only
after the `k - 1` failed attempts — no delay after the successful one. -/
theorem waitForHealth_succeeds_on_attempt_k (url : String)
    (attempts delayMs k : Nat) (resp : Nat → Option Bool)
    (hk1 : 1 ≤ k) (hk : k ≤ (if attempts = 0 then 12 else attempts))
    (hsucc : resp (k - 1) = some true)
    (hprev : ∀ j, j < k - 1 → resp j ≠ some true) :
    (waitForHealth url attempts delayMs resp).1.requests = k
  ∧ (waitForHealth url attempts delayMs resp).1.sleptMs
      = (k - 1) * (if delayMs = 0 then 400 else delayMs)
  ∧ (waitForHealth url attempts delayMs resp).1.success = true
  ∧ (waitForHealth url attempts delayMs resp).2 = Except.ok () := by
  have hloop := healthLoop_first_success resp (if delayMs = 0 then 400 else delayMs)
    (k - 1) 0 (if attempts = 0 then 12 else attempts) (by omega)
    (by simpa using hsucc) (fun j hj => by simpa using hprev j hj)
  have hfst : (waitForHealth url attempts delayMs resp).1 =
      ⟨k - 1 + 1, (k - 1) * (if delayMs = 0 then 400 else delayMs), true⟩ := by
    simp only [waitForHealth]
    exact hloop
  have hsnd : (waitForHealth url attempts delayMs resp).2 = Except.ok () := by
    simp only [waitForHealth]
    rw [hloop]
    rfl
  refine ⟨?_, by rw [hfst], by rw [hfst], hsnd⟩
  rw [hfst]
  show k - 1 + 1 = k
  omega

theorem waitForHealth_succeeds_on_attempt_k_witness :
    (waitForHealth "http://localhost:4321/api/health" 12 400
        (fun i => if i = 2 then some true else none)).1.requests = 3
  ∧ (waitForHealth "http://localhost:4321/api/health" 12 400
        (fun i => if i = 2 then some true else none)).1.sleptMs = 800
  ∧ (waitForHealth "http://localhost:4321/api/health" 12 400
        (fun i => if i = 2 then some true else none)).2 = Except.ok () := by
  have h := waitForHealth_succeeds_on_attempt_k "http://localhost:4321/api/health" 12 400 3
    (fun i => if i = 2 then some true else none)
    (by omega) (by simp) (by simp)
    (fun j hj => by
      have : j ≠ 2 := by omega
      simp [this])
  exact ⟨h.1, h.2.1, h.2.2.2⟩

theorem isPrefixOf_append_self (a b : List Char) : a.isPrefixOf (a ++ b) = true :=
  List.isPrefixOf_iff_prefix.mpr (List.prefix_append a b)

theorem isAmpIssue_ampMsg (v : List Char) : isAmpIssue (ampMsg v) = true :=
  isPrefixOf_append_self _ _

theorem mem_ampIssues {m : List Char} :
    ∀ {vs : List (List Char)}, m ∈ ampIssues vs → ∃ v, m = ampMsg v := by
  intro vs
  induction vs with
  | nil => intro h; exact absurd h (List.not_mem_nil m)
  | cons w rest ih =>
    intro h
    by_cases hw : hasUnescapedAmp w
    · rw [ampIssues, if_pos hw] at h
      exact ⟨w, List.mem_singleton.mp h⟩
    · rw [ampIssues, if_neg hw] at h
      exact ih h

theorem marker_not_mem_amp {m : List Char} (hm : isAmpIssue m = false)
    (vs : List (List Char)) : m ∉ ampIssues vs := by
  intro h
  obtain ⟨v, rfl⟩ := mem_ampIssues h
  rw [isAmpIssue_ampMsg] at hm
  exact Bool.noConfusion hm

theorem ampIssues_filter (vs : List (List Char)) :
    (ampIssues vs).filter isAmpIssue = ampIssues vs := by
  induction vs with
  | nil => rfl
  | cons w rest ih =>
    by_cases hw : hasUnescapedAmp w
    · rw [ampIssues, if_pos hw]
      simp [List.filter, isAmpIssue_ampMsg]
    · rw [ampIssues, if_neg hw]
      exact ih

theorem filter_validateManifestText (t : List Char) :
    (validateManifestText t).filter isAmpIssue = ampIssues (extractDefaultValues t) := by
  unfold validateManifestText
  rw [List.filter_append, List.filter_append, List.filter_append]
  have h1 : (if containsSub "<OfficeApp".toList t then ([] : List (List Char))
      else ["missing <OfficeApp>".toList]).filter isAmpIssue = [] := by
    split <;> decide
  have h2 : (if containsSub "<Id>".toList t then ([] : List (List Char))
      else ["missing <Id>".toList]).filter isAmpIssue = [] := by
    split <;> decide
  have h3 : (if containsSub "SourceLocation".toList t then ([] : List (List Char))
      else ["missing SourceLocation".toList]).filter isAmpIssue = [] := by
    split <;> decide
  rw [h1, h2, h3, ampIssues_filter]
  rfl

theorem ampIssues_of_find {vs : List (List Char)} {v : List Char}
    (h : vs.find? hasUnescapedAmp = some v) : ampIssues vs = [ampMsg v] := by
  induction vs with
  | nil => exact absurd h (by simp)
  | cons w rest ih =>
    by_cases hw : hasUnescapedAmp w
    · rw [List.find?_cons_of_pos _ hw] at h
      injection h with h
      rw [ampIssues, if_pos hw, h]
    · rw [List.find?_cons_of_neg _ hw] at h
      rw [ampIssues, if_neg hw]
      exact ih h

theorem ampIssues_of_all_ok {vs : List (List Char)}
    (h : ∀ v ∈ vs, hasUnescapedAmp v = false) : ampIssues vs = [] := by
  induction vs with
  | nil => rfl
  | cons w rest ih =>
    rw [ampIssues, if_neg (by simp [h w (List.mem_cons_self w rest)])]
    exact ih (fun v hv => h v (List.mem_cons_of_mem w hv))

/-- C6: if some `DefaultValue="..."` attribute value of the text contains
a bare `&` not followed by one of the five known entities, the validator
reports exactly one ampersand defect, naming the first such value (the
scan `break`s there and looks at no later attribute); if every `&` in
every such value is escaped, no ampersand defect is reported. -/
theorem validator_flags_first_unescaped_amp (t : List Char) :
    (∀ v, (extractDefaultValues t).find? hasUnescapedAmp = some v →
        (validateManifestText t).filter isAmpIssue = [ampMsg v])
  ∧ ((∀ v ∈ extractDefaultValues t, hasUnescapedAmp v = false) →
        (validateManifestText t).filter isAmpIssue = []) := by
  constructor
  · intro v hv
    rw [filter_validateManifestText]
    exact ampIssues_of_find hv
  · intro h
    rw [filter_validateManifestText]
    exact ampIssues_of_all_ok h

theorem validator_flags_first_unescaped_amp_witness :
    (validateManifestText scenarioBText).filter isAmpIssue = [ampMsg "A & B".toList]
  ∧ (validateManifestText scenarioAText).filter isAmpIssue = [] := by
  constructor
  · exact (validator_flags_first_unescaped_amp scenarioBText).1 "A & B".toList (by decide)
  · exact (validator_flags_first_unescaped_amp scenarioAText).2 (by decide)

/-- C7: each of the three required substrings (`<OfficeApp`, `<Id>`,
`SourceLocation`) is reported missing — with its own distinguishable
marker message — exactly when the text does not contain it; none of the
three checks short-circuits the others, so the empty text yields all
three markers. -/
theorem validator_reports_missing_required_substrings (t : List Char) :
    ("missing <OfficeApp>".toList ∈ validateManifestText t
        ↔ containsSub "<OfficeApp".toList t = false)
  ∧ ("missing <Id>".toList ∈ validateManifestText t
        ↔ containsSub "<Id>".toList t = false)
  ∧ ("missing SourceLocation".toList ∈ validateManifestText t
        ↔ containsSub "SourceLocation".toList t = false)
  ∧ validateManifestText [] =
      ["missing <OfficeApp>".toList, "missing <Id>".toList,
       "missing SourceLocation".toList] := by
  have hamp1 := marker_not_mem_amp (m := "missing <OfficeApp>".toList) (by decide)
    (extractDefaultValues t)
  have hamp2 := marker_not_mem_amp (m := "missing <Id>".toList) (by decide)
    (extractDefaultValues t)
  have hamp3 := marker_not_mem_amp (m := "missing SourceLocation".toList) (by decide)
    (extractDefaultValues t)
  refine ⟨?_, ?_, ?_, by decide⟩
  · simp only [validateManifestText, List.mem_append, List.mem_ite_nil_left,
      List.mem_singleton]
    constructor
    · rintro (((⟨hc, _⟩ | ⟨_, he⟩) | ⟨_, he⟩) | hamp)
      · simpa using hc
      · exact absurd he (by decide)
      · exact absurd he (by decide)
      · exact absurd hamp hamp1
    · intro hc
      exact Or.inl (Or.inl (Or.inl ⟨by simpa using hc, trivial⟩))
  · simp only [validateManifestText, List.mem_append, List.mem_ite_nil_left,
      List.mem_singleton]
    constructor
    · rintro (((⟨_, he⟩ | ⟨hc, _⟩) | ⟨_, he⟩) | hamp)
      · exact absurd he (by decide)
      · simpa using hc
      · exact absurd he (by decide)
      · exact absurd hamp hamp2
    · intro hc
      exact Or.inl (Or.inl (Or.inr ⟨by simpa using hc, trivial⟩))
  · simp only [validateManifestText, List.mem_append, List.mem_ite_nil_left,
      List.mem_singleton]
    constructor
    · rintro (((⟨_, he⟩ | ⟨_, he⟩) | ⟨hc, _⟩) | hamp)
      · exact absurd he (by decide)
      · exact absurd he (by decide)
      · simpa using hc
      · exact absurd hamp hamp3
    · intro hc
      exact Or.inl (Or.inr ⟨by simpa using hc, trivial⟩)

theorem validator_reports_missing_required_substrings_witness :
    "missing <OfficeApp>".toList ∈ validateManifestText "<Id> SourceLocation".toList
  ∧ "missing <Id>".toList ∉ validateManifestText "<Id> SourceLocation".toList := by
  constructor
  · exact (validator_reports_missing_required_substrings
      "<Id> SourceLocation".toList).1.mpr (by decide)
  · intro h
    have := (validator_reports_missing_required_substrings
      "<Id> SourceLocation".toList).2.1.mp h
    exact absurd this (by decide)

theorem mem_andThen {x : Step} {r : StageRes} {k : Unit → StageRes} :
    x ∈ (andThen r k).1 ↔ x ∈ r.1 ∨ (r.2 = Except.ok () ∧ x ∈ (k ()).1) := by
  obtain ⟨t, e⟩ := r
  cases e with
  | error e => simp [andThen]
  | ok u =>
    cases u
    simp [andThen]

theorem andThen_of_ok {r : StageRes} {k : Unit → StageRes} (h : r.2 = Except.ok ()) :
    andThen r k = (r.1 ++ (k ()).1, (k ()).2) := by
  obtain ⟨t, e⟩ := r
  cases e with
  | error e => exact absurd h (by simp)
  | ok u =>
    cases u
    rfl

theorem mem_stValidate {env : Env} {x : Step} (h : x ∈ (stValidate env).1) :
    x = Step.validate := by
  unfold stValidate at h
  split at h
  · split at h <;> simpa using h
  · simp at h

theorem mem_stClearCache {env : Env} {x : Step} (h : x ∈ (stClearCache env).1) :
    x = Step.clearCache := by
  unfold stClearCache at h
  split at h
  · simpa using h
  · simp at h

theorem mem_stSideload {env : Env} {x : Step} (h : x ∈ (stSideload env).1) :
    x = Step.sideload := by
  unfold stSideload at h
  split at h
  · split at h
    · simpa using h
    · simp at h
  · simp at h

theorem mem_stReclaim {env : Env} {x : Step} (h : x ∈ (stReclaim env).1) :
    x = Step.killPort ∨ x = Step.killPidFile := by
  unfold stReclaim at h
  split at h
  · exact Or.inl (by simpa using h)
  · exact Or.inr (by simpa using h)

theorem mem_stLaunch {env : Env} {x : Step} (h : x ∈ (stLaunch env).1) :
    x = Step.launch := by
  unfold stLaunch at h
  split at h
  · split at h
    · simp at h
    · simpa using h
  · simp at h

theorem mem_stHealth {env : Env} {x : Step} (h : x ∈ (stHealth env).1) :
    x = Step.health := by
  unfold stHealth at h
  split at h
  · simpa using h
  · simp at h

theorem mem_stRestart {env : Env} {x : Step} (h : x ∈ (stRestart env).1) :
    x = Step.restart := by
  unfold stRestart at h
  split at h
  · simpa using h
  · simp at h

theorem mem_stReport {x : Step} (h : x ∈ stReport.1) : x = Step.report := by
  simpa [stReport] using h

theorem stReclaim_fst (env : Env) :
    (stReclaim env).1 =
      if resolveKillPort env.args then [Step.killPort] else [Step.killPidFile] := by
  unfold stReclaim
  split <;> rfl

theorem stReclaim_snd (env : Env) : (stReclaim env).2 = Except.ok () := by
  unfold stReclaim
  split <;> rfl

theorem mem_preReclaim {env : Env} {x : Step} (h : x ∈ (preReclaim env).1) :
    x = Step.validate ∨ x = Step.clearCache ∨ x = Step.sideload := by
  unfold preReclaim at h
  rcases mem_andThen.mp h with h1 | ⟨_, h2⟩
  · exact Or.inl (mem_stValidate h1)
  · rcases mem_andThen.mp h2 with h3 | ⟨_, h4⟩
    · exact Or.inr (Or.inl (mem_stClearCache h3))
    · exact Or.inr (Or.inr (mem_stSideload h4))

theorem mem_preHealth {env : Env} {x : Step} (h : x ∈ (preHealth env).1) :
    x = Step.validate ∨ x = Step.clearCache ∨ x = Step.sideload ∨
      x = Step.killPort ∨ x = Step.killPidFile ∨ x = Step.launch := by
  unfold preHealth at h
  rcases mem_andThen.mp h with h1 | ⟨_, h2⟩
  · rcases mem_preReclaim h1 with h | h | h
    · exact Or.inl h
    · exact Or.inr (Or.inl h)
    · exact Or.inr (Or.inr (Or.inl h))
  · rcases mem_andThen.mp h2 with h3 | ⟨_, h4⟩
    · rcases mem_stReclaim h3 with h | h
      · exact Or.inr (Or.inr (Or.inr (Or.inl h)))
      · exact Or.inr (Or.inr (Or.inr (Or.inr (Or.inl h))))
    · exact Or.inr (Or.inr (Or.inr (Or.inr (Or.inr (mem_stLaunch h4)))))

theorem killPort_mem_mainRun_iff (env : Env) :
    Step.killPort ∈ (mainRun env).1 ↔
      ((preReclaim env).2 = Except.ok () ∧ resolveKillPort env.args = true) := by
  constructor
  · intro h
    unfold mainRun at h
    rcases mem_andThen.mp h with h1 | ⟨_, h2⟩
    · unfold preHealth at h1
      rcases mem_andThen.mp h1 with h3 | ⟨hok, h4⟩
      · rcases mem_preReclaim h3 with h | h | h <;> exact absurd h (by decide)
      · rcases mem_andThen.mp h4 with h5 | ⟨_, h6⟩
        · rw [stReclaim_fst] at h5
          refine ⟨hok, ?_⟩
          by_cases hf : resolveKillPort env.args = true
          · exact hf
          · rw [if_neg hf] at h5
            exact absurd (List.mem_singleton.mp h5) (by decide)
        · exact absurd (mem_stLaunch h6) (by decide)
    · rcases mem_andThen.mp h2 with h5 | ⟨_, h6⟩
      · exact absurd (mem_stHealth h5) (by decide)
      · rcases mem_andThen.mp h6 with h7 | ⟨_, h8⟩
        · exact absurd (mem_stRestart h7) (by decide)
        · exact absurd (mem_stReport h8) (by decide)
  · rintro ⟨hok, hf⟩
    unfold mainRun
    apply mem_andThen.mpr
    left
    unfold preHealth
    apply mem_andThen.mpr
    right
    refine ⟨hok, ?_⟩
    apply mem_andThen.mpr
    left
    rw [stReclaim_fst, if_pos hf]
    exact List.mem_singleton.mpr rfl

theorem killPidFile_mem_mainRun_iff (env : Env) :
    Step.killPidFile ∈ (mainRun env).1 ↔
      ((preReclaim env).2 = Except.ok () ∧ resolveKillPort env.args = false) := by
  constructor
  · intro h
    unfold mainRun at h
    rcases mem_andThen.mp h with h1 | ⟨_, h2⟩
    · unfold preHealth at h1
      rcases mem_andThen.mp h1 with h3 | ⟨hok, h4⟩
      · rcases mem_preReclaim h3 with h | h | h <;> exact absurd h (by decide)
      · rcases mem_andThen.mp h4 with h5 | ⟨_, h6⟩
        · rw [stReclaim_fst] at h5
          refine ⟨hok, ?_⟩
          by_cases hf : resolveKillPort env.args = true
          · rw [if_pos hf] at h5
            exact absurd (List.mem_singleton.mp h5) (by decide)
          · simpa using hf
        · exact absurd (mem_stLaunch h6) (by decide)
    · rcases mem_andThen.mp h2 with h5 | ⟨_, h6⟩
      · exact absurd (mem_stHealth h5) (by decide)
      · rcases mem_andThen.mp h6 with h7 | ⟨_, h8⟩
        · exact absurd (mem_stRestart h7) (by decide)
        · exact absurd (mem_stReport h8) (by decide)
  · rintro ⟨hok, hf⟩
    unfold mainRun
    apply mem_andThen.mpr
    left
    unfold preHealth
    apply mem_andThen.mpr
    right
    refine ⟨hok, ?_⟩
    apply mem_andThen.mpr
    left
    rw [stReclaim_fst, if_neg (by simp [hf])]
    exact List.mem_singleton.mpr rfl

/-- C1: `killPidFile` on a nonexistent file and on a non-numeric file is
a no-op, as claimed — but on an empty (or whitespace-only) file the
trimmed content is the empty string, JavaScript `Number('')` is `0`,
`Number.isFinite(0)` holds, and the code calls `process.kill(0)`: a
termination signal to the caller's whole process group, not a no-op. -/
theorem killPidFile_empty_file_signals_group :
    killPidFile (some ".cache/verify/server.pid") none = none
  ∧ killPidFile (some ".cache/verify/server.pid") (some "not-a-pid") = none
  ∧ killPidFile (some ".cache/verify/server.pid") (some "") = some 0
  ∧ killPidFile (some ".cache/verify/server.pid") (some " \n") = some 0 := by
  refine ⟨by decide, by decide, by decide, by decide⟩

/-- C2 counterexample: a run whose manifest fails validation (here: an
empty manifest file, `--manifest` given, `validate` defaulting to true)
aborts before the reclamation step, so neither `killPort` nor
`killPidFile` is attempted — refuting "exactly one of the two is
attempted in every run". -/
theorem reclaim_skipped_when_validation_fails :
    (mainRun envInvalidManifest).1 = [Step.validate]
  ∧ Step.killPort ∉ (mainRun envInvalidManifest).1
  ∧ Step.killPidFile ∉ (mainRun envInvalidManifest).1 := by
  refine ⟨by decide, by decide, by decide⟩

/-- C2 (amended): the two reclamation mechanisms are never both invoked
in a run, and kill-port takes precedence: `killPort` runs exactly in the
runs that reach the reclamation step (no earlier stage threw) with the
kill-port flag true, `killPidFile` exactly in those that reach it with
the flag false.  (A run that aborts earlier attempts neither.) -/
theorem reclaim_mutually_exclusive (env : Env) :
    ¬ (Step.killPort ∈ (mainRun env).1 ∧ Step.killPidFile ∈ (mainRun env).1)
  ∧ (Step.killPort ∈ (mainRun env).1 ↔
      ((preReclaim env).2 = Except.ok () ∧ resolveKillPort env.args = true))
  ∧ (Step.killPidFile ∈ (mainRun env).1 ↔
      ((preReclaim env).2 = Except.ok () ∧ resolveKillPort env.args = false)) := by
  refine ⟨?_, killPort_mem_mainRun_iff env, killPidFile_mem_mainRun_iff env⟩
  rintro ⟨h1, h2⟩
  have a1 := (killPort_mem_mainRun_iff env).mp h1
  have a2 := (killPidFile_mem_mainRun_iff env).mp h2
  rw [a1.2] at a2
  exact Bool.noConfusion a2.2

theorem reclaim_mutually_exclusive_witness :
    Step.killPort ∈ (mainRun envOk).1 := by
  exact ((reclaim_mutually_exclusive envOk).2.1).mpr ⟨rfl, by decide⟩

/-- C5: when `--sideload` is not supplied it resolves to "a manifest path
was given"; when `--restart` is not supplied it resolves to the resolved
sideload value; in particular a manifest with neither flag yields
`sideload = restart = true`, and no arguments at all yield
`sideload = restart = false`. -/
theorem install_restart_defaults (args : Args) :
    (args "sideload" = none → resolveSideload args = manifestGiven args)
  ∧ (args "restart" = none → resolveRestart args = resolveSideload args)
  ∧ (resolveSideload argsManifestOnly = true ∧ resolveRestart argsManifestOnly = true)
  ∧ (resolveSideload argsEmpty = false ∧ resolveRestart argsEmpty = false) := by
  refine ⟨?_, ?_, by decide, by decide⟩
  · intro h
    show boolArg args "sideload" (manifestGiven args) = manifestGiven args
    unfold boolArg
    rw [h]
  · intro h
    show boolArg args "restart" (resolveSideload args) = resolveSideload args
    unfold boolArg
    rw [h]

theorem install_restart_defaults_witness :
    resolveSideload argsEmpty = manifestGiven argsEmpty
  ∧ resolveRestart argsEmpty = resolveSideload argsEmpty :=
  ⟨(install_restart_defaults argsEmpty).1 rfl,
   (install_restart_defaults argsEmpty).2.1 rfl⟩

/-- C8: when the health poller exhausts its budget, `main` rejects with
the error naming the URL, the process exits with code 1, the restart step
(and the final report) never execute, and the trace of every earlier step
is left exactly in place — the model has no rollback action at all. -/
theorem health_exhaustion_aborts_run (env : Env)
    (hpre : (preHealth env).2 = Except.ok ())
    (hh : resolveHealth env.args = true)
    (hfail : ∀ i, env.healthResp i ≠ some true) :
    mainRun env = ((preHealth env).1 ++ [Step.health],
      Except.error ("server not healthy at " ++ resolveHealthUrl env.args))
  ∧ exitCode env = 1
  ∧ Step.restart ∉ (mainRun env).1
  ∧ Step.report ∉ (mainRun env).1 := by
  have hloop := healthLoop_fail env.healthResp 400 hfail 12 0
  have hst : stHealth env = ([Step.health],
      Except.error ("server not healthy at " ++ resolveHealthUrl env.args)) := by
    unfold stHealth
    rw [if_pos hh]
    simp [waitForHealth, hloop]
  have hmain : mainRun env = ((preHealth env).1 ++ [Step.health],
      Except.error ("server not healthy at " ++ resolveHealthUrl env.args)) := by
    unfold mainRun
    rw [andThen_of_ok hpre, hst]
    rfl
  have hnr : Step.restart ∉ (preHealth env).1 := by
    intro h
    rcases mem_preHealth h with h | h | h | h | h | h <;> exact absurd h (by decide)
  refine ⟨hmain, ?_, ?_, ?_⟩
  · unfold exitCode
    rw [hmain]
  · intro h
    rw [hmain] at h
    rcases List.mem_append.mp h with h | h
    · exact hnr h
    · exact absurd (List.mem_singleton.mp h) (by decide)
  · intro h
    rw [hmain] at h
    rcases List.mem_append.mp h with h | h
    · rcases mem_preHealth h with h | h | h | h | h | h <;> exact absurd h (by decide)
    · exact absurd (List.mem_singleton.mp h) (by decide)

theorem health_exhaustion_aborts_run_witness :
    exitCode envHealthFail = 1
  ∧ Step.restart ∉ (mainRun envHealthFail).1 := by
  have h := health_exhaustion_aborts_run envHealthFail rfl (by decide)
    (fun i hc => Option.noConfusion hc)
  exact ⟨h.2.1, h.2.2.1⟩

/-- C9: `killPort` never throws: a lookup failure (`lsof` absent or no
listeners), empty or unparsable lookup output, and failing termination
signals are all swallowed; every invocation returns normally. -/
theorem killPort_never_throws (port : Option Int) (lookup : Except String String)
    (killResult : Int → Except String Unit) :
    ∃ pids, killPort port lookup killResult = Except.ok pids := by
  cases port with
  | none => exact ⟨[], rfl⟩
  | some p =>
    by_cases hp : p = 0
    · refine ⟨[], ?_⟩
      simp only [killPort, if_pos hp]
    · cases lookup with
      | error e =>
        refine ⟨[], ?_⟩
        simp only [killPort, if_neg hp]
      | ok raw =>
        by_cases ht : jsTrim raw.toList = []
        · refine ⟨[], ?_⟩
          simp only [killPort, if_neg hp, if_pos ht]
        · refine ⟨((((splitLinesRN (jsTrim raw.toList)).map
              (fun line => jsNumberInt (jsTrim line))).filterMap id).map
              (fun pid => (pid, match killResult pid with
                                | Except.ok _ => true
                                | Except.error _ => false))), ?_⟩
          simp only [killPort, if_neg hp, if_neg ht]

/-- C10: with no `--manifest` argument the validation stage is skipped
silently (it performs no step and cannot throw), whatever the `validate`
flag says, and the rest of the run proceeds: no run step is a validation
step. -/
theorem no_manifest_skips_validation (env : Env)
    (h : env.args "manifest" = none) :
    stValidate env = ([], Except.ok ())
  ∧ Step.validate ∉ (mainRun env).1 := by
  have hm : manifestGiven env.args = false := by
    unfold manifestGiven
    rw [h]
  have hv : stValidate env = ([], Except.ok ()) := by
    unfold stValidate
    rw [if_neg (by simp [hm])]
  refine ⟨hv, ?_⟩
  intro hmem
  unfold mainRun at hmem
  rcases mem_andThen.mp hmem with h1 | ⟨_, h2⟩
  · unfold preHealth at h1
    rcases mem_andThen.mp h1 with h3 | ⟨_, h4⟩
    · unfold preReclaim at h3
      rcases mem_andThen.mp h3 with h5 | ⟨_, h6⟩
      · rw [hv] at h5
        exact absurd h5 (List.not_mem_nil _)
      · rcases mem_andThen.mp h6 with h7 | ⟨_, h8⟩
        · exact absurd (mem_stClearCache h7) (by decide)
        · exact absurd (mem_stSideload h8) (by decide)
    · rcases mem_andThen.mp h4 with h5 | ⟨_, h6⟩
      · rcases mem_stReclaim h5 with h' | h' <;> exact absurd h' (by decide)
      · exact absurd (mem_stLaunch h6) (by decide)
  · rcases mem_andThen.mp h2 with h5 | ⟨_, h6⟩
    · exact absurd (mem_stHealth h5) (by decide)
    · rcases mem_andThen.mp h6 with h7 | ⟨_, h8⟩
      · exact absurd (mem_stRestart h7) (by decide)
      · exact absurd (mem_stReport h8) (by decide)

theorem no_manifest_skips_validation_witness :
    stValidate envHealthFail = ([], Except.ok ())
  ∧ Step.validate ∉ (mainRun envHealthFail).1 :=
  no_manifest_skips_validation envHealthFail rfl

end WordAddinDev
